import Mathlib

/-!
# Florence 4C configurator — verification of the domain state & layout engine

A shallow embedding of the configurator's core (state store, slot packing,
frame reordering, auto numbering, snap geometry) with theorems settling the
frozen claims about it.

Sources embedded:
* `src/app/core/models/configurator.models.ts` (data model, `KonvaStateService`)
* `src/app/core/constants/door-configs.ts` (`DOOR_CONFIGS`, `getDoorUnits`)
* `cabinet-editor-modal.component.ts` (slot system, swap/replace/placement)
* `konva-drawer-factory.ts` (frame reorder, auto numbering, snap points)

JS numbers appearing in unit arithmetic are modelled as `ℚ` (the catalog has
fractional unit sizes such as 4.5); ids generated by `max + 1` counters are
modelled as `ℕ`.  `x || 0` on a JS number that is always a non-negative
integer is the identity (0 is its own fallback), and is modelled as such.
-/

namespace Configurator

/-! ## JS string primitives

Structural models of the string operations the source uses
(`toLowerCase`, `toUpperCase`, `startsWith`), defined over the character
list so that concrete instances evaluate by `decide`; they agree with the
library's `String.toLower` / `String.toUpper` / `String.startsWith` on the
ASCII door-type codes involved. -/

def jsToLower (s : String) : String := ⟨s.data.map Char.toLower⟩

def jsToUpper (s : String) : String := ⟨s.data.map Char.toUpper⟩

def jsStartsWith (s pre : String) : Bool := pre.data.isPrefixOf s.data

/-! ## Door catalog (`door-configs.ts`)

`DOOR_CONFIGS[name]?.units`: the unit size of each catalogued door type.
`getDoorUnits` falls back to 1 for unknown codes. -/

def doorConfigUnits : String → Option ℚ
  | "sd" => some 1
  | "dd" => some 2
  | "td" => some 3
  | "qd" => some 4
  | "qud" => some 5
  | "p2" => some 2
  | "p3" => some 3
  | "p4" => some 4
  | "p5" => some 5
  | "p6" => some 6
  | "sp" => some (9/2)
  | "md" => some 1
  | "mdsd" => some 2
  | "s" => some 1
  | "bs" => some 1
  | "ms" => some 1
  | "bms" => some 1
  | "hopd" => some (5/2)
  | "hopbp" => some (15/2)
  | "hopsp10" => some 1
  | "hopsp20" => some 2
  | "hopsp30" => some 3
  | "hopsp40" => some 4
  | "hopsp50" => some 5
  | "hopsp55" => some (11/2)
  | "tds1" => some 2
  | "td5" => some 5
  | "td5p" => some (11/2)
  | "tdh5" => some 5
  | "tdh5p" => some (11/2)
  | "tdh6" => some 6
  | "tdh8" => some 8
  | "tdh8p" => some 8
  | "tdh9" => some 9
  | "td6" => some 6
  | "tdh10" => some 10
  | "tdh11" => some 11
  | _ => none

/-- `getDoorUnits(name)`: `DOOR_CONFIGS[name]?.units ?? 1`. -/
def getDoorUnits (name : String) : ℚ := (doorConfigUnits name).getD 1

/-! ## Data model (`configurator.models.ts`) -/

/-- The `'left' | 'right'` column tag of a two-column frame. -/
inductive Col where
  | left : Col
  | right : Col
deriving DecidableEq, Repr

/-- `Door` instance.  `column` is optional in the source; most readers treat a
missing column as `'left'` (`door.column || 'left'`). -/
structure Door where
  position : ℚ
  door_type : String
  substitute : Option String := none
  label : Option String := none
  column : Option Col := none
deriving DecidableEq, Repr

/-- `door.column || 'left'`, the default used by `getDoorId`, `getLeftDoors`
and the column filters. -/
def Door.colOf (d : Door) : Col := d.column.getD Col.left

def dummyDoor : Door := { position := 0, door_type := "" }

/-- `Frame` instance.  Display-only fields (`iw`, `ih`, `grid_offset`, UI
flags) are never read by the operations modelled here and are omitted. -/
structure Frame where
  id : String
  frame_id : String := ""
  door_type : String := ""
  width : ℚ := 0
  height : ℚ := 0
  bottom : ℚ := 0
  doors : List Door := []
deriving DecidableEq, Repr

structure Wall where
  wall_id : ℕ
  wall_name : String := ""
  frames : List Frame := []
deriving DecidableEq, Repr

structure Level where
  level_id : ℕ
  level_name : String := ""
  walls : List Wall := []
  expanded : Bool := true
deriving DecidableEq, Repr

/-- `AppConfig`.  The string-union fields are modelled as `String` (their JS
truthiness — non-emptiness — matters to `loadStateFromProject`). -/
structure AppConfig where
  install_type : String
  kit_color_value : String
  kit_color_name : String
  depot_color : Option String := none
  ada_mode : String
  delivery_mode : String
  app_mode : String
  door_id_type : String
  door_id_font : Option String := none
  lock_type : String
deriving DecidableEq, Repr

/-- `ConfiguratorState`.  Fields never read nor written by the modelled
operations (`offsets_z`, `height_lock_*`, `job_name`, timestamps, …) are
omitted: every modelled mutation spreads them through unchanged. -/
structure ConfiguratorState where
  config : AppConfig
  levels : List Level
  active_level_id : ℕ
  active_wall_id : ℕ
  tenant_num_start : Option ℕ := none
  parcel_num_start : Option ℕ := none
  configuration_number_array : List (String × String) := []
  module_mode : String := "frame"
deriving DecidableEq, Repr

def DEFAULT_CONFIG : AppConfig :=
  { install_type := "recessed"
    kit_color_value := "0xdbe0eb_tbd"
    kit_color_name := "TBD"
    ada_mode := "all"
    delivery_mode := "usps"
    app_mode := "standard"
    door_id_type := "tbd"
    lock_type := "Standard" }

def INITIAL_STATE : ConfiguratorState :=
  { config := DEFAULT_CONFIG
    levels := [{ level_id := 0
                 level_name := "Level 1"
                 walls := [{ wall_id := 0, wall_name := "Wall 1" }]
                 expanded := true }]
    active_level_id := 0
    active_wall_id := 0 }

/-! ## State store mutations (`KonvaStateService`) -/

/-- `levels.length > 0 ? Math.max(...levels.map(l => l.level_id)) + 1 : 0`. -/
def newLevelId (levels : List Level) : ℕ :=
  match levels with
  | [] => 0
  | _ => ((levels.map Level.level_id).foldl max 0) + 1

/-- `allWallIds.length > 0 ? Math.max(...allWallIds) + 1 : 0` where
`allWallIds = levels.flatMap(l => l.walls.map(w => w.wall_id))`. -/
def newWallId (levels : List Level) : ℕ :=
  match levels.flatMap (fun l => l.walls.map Wall.wall_id) with
  | [] => 0
  | ids => (ids.foldl max 0) + 1

/-- `KonvaStateService.addLevel`: appends a fresh level holding one fresh
wall; returns the new level.  Does not touch the active pointers. -/
def addLevel (s : ConfiguratorState) : ConfiguratorState × Level :=
  let lid := newLevelId s.levels
  let wid := newWallId s.levels
  let newLevel : Level :=
    { level_id := lid
      level_name := "Level " ++ toString (lid + 1)
      walls := [{ wall_id := wid, wall_name := "" }]
      expanded := true }
  ({ s with levels := s.levels ++ [newLevel] }, newLevel)

/-- First wall's id of a level, `level.walls[0]?.wall_id || 0` (`wall_id` is a
non-negative integer, so `|| 0` only supplies the `undefined` fallback). -/
def firstWallId : Option Level → ℕ
  | some lv =>
    match lv.walls with
    | w :: _ => w.wall_id
    | [] => 0
  | none => 0

/-- `KonvaStateService.removeLevel`.  Refuses level 0 and the last level;
otherwise filters the level out, moves `active_level_id` off the removed
level if needed, and recomputes `active_wall_id` as the first wall of the
(new) active level — unconditionally, even when the active level was not the
one removed. -/
def removeLevel (s : ConfiguratorState) (levelId : ℕ) : Bool × ConfiguratorState :=
  if levelId = 0 then (false, s)
  else if s.levels.length ≤ 1 then (false, s)
  else
    let newLevels := s.levels.filter (fun l => l.level_id ≠ levelId)
    let newActiveLevelId :=
      if s.active_level_id = levelId then
        (newLevels.head?.map Level.level_id).getD 0
      else s.active_level_id
    let newActiveLevel := newLevels.find? (fun l => l.level_id = newActiveLevelId)
    let newActiveWallId := firstWallId newActiveLevel
    (true, { s with
              levels := newLevels
              active_level_id := newActiveLevelId
              active_wall_id := newActiveWallId })

/-- `KonvaStateService.setActiveLevel`.  The source throws when the level id
is unknown (no mutation happened yet); modelled as the unchanged state. -/
def setActiveLevel (s : ConfiguratorState) (levelId : ℕ) : ConfiguratorState :=
  match s.levels.find? (fun l => l.level_id = levelId) with
  | none => s
  | some level =>
    { s with
       active_level_id := levelId
       active_wall_id := firstWallId (some level) }

/-- `KonvaStateService.addWall`: appends a fresh wall (project-unique id) to
the given level; throws (modelled: no change, `none`) when the level is
unknown. -/
def addWall (s : ConfiguratorState) (levelId : ℕ) : ConfiguratorState × Option Wall :=
  match s.levels.find? (fun l => l.level_id = levelId) with
  | none => (s, none)
  | some _ =>
    let wid := newWallId s.levels
    let newWall : Wall := { wall_id := wid, wall_name := "" }
    let updatedLevels := s.levels.map (fun l =>
      if l.level_id = levelId then { l with walls := l.walls ++ [newWall] } else l)
    ({ s with levels := updatedLevels }, some newWall)

/-- `KonvaStateService.removeWall`.  Fails when the level is unknown or holds
at most one wall.  Otherwise filters the wall out of that level and then
recomputes `active_wall_id` against the *modified* level: keep it when that
level still contains it, else that level's first wall.  (The source also
computes the correct replacement inside the `map` callback and discards it.) -/
def removeWall (s : ConfiguratorState) (levelId wallId : ℕ) : Bool × ConfiguratorState :=
  match s.levels.find? (fun l => l.level_id = levelId) with
  | none => (false, s)
  | some level =>
    if level.walls.length ≤ 1 then (false, s)
    else
      let updatedLevels := s.levels.map (fun l =>
        if l.level_id = levelId then
          { l with walls := l.walls.filter (fun w => w.wall_id ≠ wallId) }
        else l)
      let updatedLevel := updatedLevels.find? (fun l => l.level_id = levelId)
      let newActiveWallId :=
        match updatedLevel with
        | some lv =>
          if (lv.walls.find? (fun w => w.wall_id = s.active_wall_id)).isSome then
            s.active_wall_id
          else firstWallId (some lv)
        | none => 0
      (true, { s with levels := updatedLevels, active_wall_id := newActiveWallId })

/-- `KonvaStateService.setActiveWall`: finds the first level containing the
wall and activates both; throws (modelled: unchanged) when absent. -/
def setActiveWall (s : ConfiguratorState) (wallId : ℕ) : ConfiguratorState :=
  match s.levels.find? (fun l =>
      (l.walls.find? (fun w => w.wall_id = wallId)).isSome) with
  | none => s
  | some lv => { s with active_level_id := lv.level_id, active_wall_id := wallId }

/-- `KonvaStateService.addFrame`: appends the frame to every wall with the
given id.  The generated `frame_...` id is a parameter of the model (the
source derives it from the clock). -/
def addFrame (s : ConfiguratorState) (wallId : ℕ) (newFrame : Frame) : ConfiguratorState :=
  { s with levels := s.levels.map (fun l =>
      { l with walls := l.walls.map (fun w =>
          if w.wall_id = wallId then { w with frames := w.frames ++ [newFrame] } else w) }) }

/-- `KonvaStateService.removeFrame`. -/
def removeFrame (s : ConfiguratorState) (wallId : ℕ) (frameId : String) : ConfiguratorState :=
  { s with levels := s.levels.map (fun l =>
      { l with walls := l.walls.map (fun w =>
          if w.wall_id = wallId then
            { w with frames := w.frames.filter (fun f => f.id ≠ frameId) }
          else w) }) }

/-! ## Project persistence (`loadStateFromProject` / `exportStateForProject`)

The persisted snapshot shape is what `exportStateForProject` emits: every key
is present, `depotColor` / `doorIdFont` / the numbering starts possibly
`undefined` (modelled `Option`).  `loadStateFromProject` consumes such a
snapshot; its `?? INITIAL_STATE...` fallbacks for `activeLevelId` /
`activeWallId` never fire on an export-shaped input and are not modelled. -/

structure ProjectState where
  levels : List Level
  activeLevelId : ℕ
  activeWallId : ℕ
  installType : String
  kitColorValue : String
  kitColorName : String
  adaMode : String
  deliveryMode : String
  appMode : String
  doorIdType : String
  lockType : String
  depotColor : Option String := none
  doorIdFont : Option String := none
  tenantNumStart : Option ℕ := none
  parcelNumStart : Option ℕ := none
  configurationNumberArray : List (String × String) := []
  moduleMode : String := "frame"
deriving DecidableEq, Repr

/-- JS truthiness of a string: non-empty. -/
def strTruthy (s : String) : Bool := s ≠ ""

/-- JS truthiness of an optional string: present and non-empty. -/
def optTruthy : Option String → Bool
  | some s => strTruthy s
  | none => false

/-- The `if (projectState.f) config.f = projectState.f` cascade of
`loadStateFromProject`: each config field is overwritten only when the
snapshot's value is truthy. -/
def loadConfig (cfg : AppConfig) (x : ProjectState) : AppConfig :=
  { install_type := if strTruthy x.installType then x.installType else cfg.install_type
    kit_color_value := if strTruthy x.kitColorValue then x.kitColorValue else cfg.kit_color_value
    kit_color_name := if strTruthy x.kitColorName then x.kitColorName else cfg.kit_color_name
    depot_color := if optTruthy x.depotColor then x.depotColor else cfg.depot_color
    ada_mode := if strTruthy x.adaMode then x.adaMode else cfg.ada_mode
    delivery_mode := if strTruthy x.deliveryMode then x.deliveryMode else cfg.delivery_mode
    app_mode := if strTruthy x.appMode then x.appMode else cfg.app_mode
    door_id_type := if strTruthy x.doorIdType then x.doorIdType else cfg.door_id_type
    door_id_font := if optTruthy x.doorIdFont then x.doorIdFont else cfg.door_id_font
    lock_type := if strTruthy x.lockType then x.lockType else cfg.lock_type }

/-- `KonvaStateService.loadStateFromProject`, acting on the current state
`s`.  (`projectState.configurationNumberArray || {}` — a present object is
always truthy, so it passes through.) -/
def loadStateFromProject (s : ConfiguratorState) (x : ProjectState) : ConfiguratorState :=
  { s with
     config := loadConfig s.config x
     levels := if x.levels.isEmpty then INITIAL_STATE.levels else x.levels
     active_level_id := x.activeLevelId
     active_wall_id := x.activeWallId
     tenant_num_start := x.tenantNumStart
     parcel_num_start := x.parcelNumStart
     configuration_number_array := x.configurationNumberArray
     module_mode := if strTruthy x.moduleMode then x.moduleMode else "frame" }

/-- `KonvaStateService.exportStateForProject`. -/
def exportStateForProject (s : ConfiguratorState) : ProjectState :=
  { levels := s.levels
    activeLevelId := s.active_level_id
    activeWallId := s.active_wall_id
    installType := s.config.install_type
    kitColorValue := s.config.kit_color_value
    kitColorName := s.config.kit_color_name
    adaMode := s.config.ada_mode
    deliveryMode := s.config.delivery_mode
    appMode := s.config.app_mode
    doorIdType := s.config.door_id_type
    lockType := s.config.lock_type
    depotColor := s.config.depot_color
    doorIdFont := s.config.door_id_font
    tenantNumStart := s.tenant_num_start
    parcelNumStart := s.parcel_num_start
    configurationNumberArray := s.configuration_number_array
    moduleMode := if strTruthy s.module_mode then s.module_mode else "frame" }

/-- A session state whose config carries a depot color (as `updateConfig`
leaves behind after the user picks one). -/
def c6PreState : ConfiguratorState :=
  { INITIAL_STATE with config := { DEFAULT_CONFIG with depot_color := some "0x8b4513_Bronze" } }

/-- A perfectly ordinary persisted snapshot: what exporting the initial state
produces (no depot color). -/
def c6Snapshot : ProjectState := exportStateForProject INITIAL_STATE

/-! ## Geometry / snap engine (`konva-drawer-factory.ts`)

`findNearestSnapPoint` compares Euclidean distances `Math.sqrt(dx² + dy²)`
against a running minimum initialised to `SNAP_THRESHOLD`; the square root
is strictly monotone on non-negatives, so the embedding carries the running
minimum squared and compares squared distances — every strict comparison
agrees with the source's. -/

structure SnapPoint where
  x : ℚ
  y : ℚ
  type : String
deriving DecidableEq, Repr

/-- `SNAP_THRESHOLD = 30` (pixels). -/
def SNAP_THRESHOLD : ℚ := 30

/-- `getSnapPointsForGroup`: the 9 candidates of one bounding box, in source
order — 4 corners, 4 edge midpoints, 1 center. -/
def getSnapPointsForGroup (x y width height : ℚ) : List SnapPoint :=
  [ { x := x, y := y, type := "corner" }
  , { x := x + width, y := y, type := "corner" }
  , { x := x, y := y + height, type := "corner" }
  , { x := x + width, y := y + height, type := "corner" }
  , { x := x + width / 2, y := y, type := "midpoint" }
  , { x := x + width / 2, y := y + height, type := "midpoint" }
  , { x := x, y := y + height / 2, type := "midpoint" }
  , { x := x + width, y := y + height / 2, type := "midpoint" }
  , { x := x + width / 2, y := y + height / 2, type := "center" } ]

/-- Squared Euclidean distance from the cursor to a snap point. -/
def distSq (pos : ℚ × ℚ) (p : SnapPoint) : ℚ :=
  (pos.1 - p.x) ^ 2 + (pos.2 - p.y) ^ 2

/-- One iteration of `findNearestSnapPoint`'s loop (squared metric). -/
def snapStep (pos : ℚ × ℚ) (acc : Option SnapPoint × ℚ) (p : SnapPoint) :
    Option SnapPoint × ℚ :=
  if distSq pos p < acc.2 then (some p, distSq pos p) else acc

/-- `findNearestSnapPoint`: the strictly nearest candidate under the
threshold, or `null`. -/
def findNearestSnapPoint (pos : ℚ × ℚ) (points : List SnapPoint) : Option (ℚ × ℚ) :=
  ((points.foldl (snapStep pos) (none, SNAP_THRESHOLD ^ 2)).1).map fun p => (p.x, p.y)

/-! ## Frame-sequence engine (`konva-drawer-factory.ts` dragend handler and
`reorderFrames`) -/

/-- The dragend handler's insertion scan: the sibling groups (the dragged
frame excluded) sorted by x as `(x, width)` pairs; the new index is the first
whose midpoint lies right of the dragged group's `x`, else the count. -/
def computeInsertIndex (x : ℚ) : List (ℚ × ℚ) → ℕ
  | [] => 0
  | ow :: rest => if x < ow.1 + ow.2 / 2 then 0 else computeInsertIndex x rest + 1

/-- JS `array.splice(idx, 0, a)`: insert at `idx`, appending when `idx`
is past the end. -/
def spliceInsert {α : Type} (l : List α) (idx : ℕ) (a : α) : List α :=
  l.take idx ++ [a] ++ l.drop idx

/-- `reorderFrames(oldIndex, newIndex)`: splice the moved frame out, then
splice it back in at `newIndex` — an index computed against the list *after*
removal.  An out-of-range `oldIndex` leaves the list unchanged (`splice`
removes nothing and the handler returns). -/
def reorderFrames (frames : List Frame) (oldIndex newIndex : ℕ) : List Frame :=
  match frames.get? oldIndex with
  | none => frames
  | some moved => spliceInsert (frames.eraseIdx oldIndex) newIndex moved

/-- The three frames of the reorder scenario. -/
def frameA : Frame := { id := "A" }
def frameB : Frame := { id := "B" }
def frameC : Frame := { id := "C" }

/-- Sibling boxes seen by the dragend scan while A is dragged: B at x=100,
C at x=220, both 100 wide. -/
def c4Siblings : List (ℚ × ℚ) := [(100, 100), (220, 100)]

/-! ## Cabinet editor modal (`cabinet-editor-modal.component.ts`)

The slot system, door swap, replacement, and empty-slot placement.  Doors
are addressed inside the modal by `getDoorId` — the string
`"{position}-{column}"`, modelled by the pair `(position, column)` (the
encoding is injective on the non-negative positions in use).  The source's
reference comparisons (`d === door1`) are modelled by list indices. -/

/-- `getDoorId`: position plus defaulted column. -/
def getDoorId (d : Door) : ℚ × Col := (d.position, d.colOf)

/-- `getLeftDoors`: `d.column === 'left' || !d.column`. -/
def getLeftDoors (doors : List Door) : List Door :=
  doors.filter (fun d => d.column = some Col.left ∨ d.column = none)

/-- `getRightDoors`: `d.column === 'right'`. -/
def getRightDoors (doors : List Door) : List Door :=
  doors.filter (fun d => d.column = some Col.right)

/-- `trySwapDoors(door1, door2)` on the doors list, the two doors given by
their indices `i`, `j` (the source holds two distinct object references).
`totalUnits` is the column height.  Note the asymmetric column defaults from
the source: `door1.column || 'left'` but `door2.column || 'right'`.  Returns
the updated doors list on success, `none` on rejection (the source mutates
nothing before its checks pass). -/
def trySwapDoors (doors : List Door) (i j : ℕ) (totalUnits : ℕ) : Option (List Door) :=
  match doors.get? i, doors.get? j with
  | some door1, some door2 =>
    let door1Units := getDoorUnits (jsToLower door1.door_type)
    let door2Units := getDoorUnits (jsToLower door2.door_type)
    let door1Column := door1.column.getD Col.left
    let door2Column := door2.column.getD Col.right
    if door1Column ≠ door2Column then none
    else
      let door1NewEnd := door2.position + door1Units - 1
      let door2NewEnd := door1.position + door2Units - 1
      if (totalUnits : ℚ) ≤ door1NewEnd ∨ (totalUnits : ℚ) ≤ door2NewEnd then none
      else
        let minPos := min door1.position door2.position
        let maxPos := max (door1.position + door1Units - 1)
                          (door2.position + door2Units - 1)
        let blocked := (List.range doors.length).any (fun k =>
          if k = i ∨ k = j then false
          else
            match doors.get? k with
            | some d =>
              if d.column.getD Col.left = door1Column then
                let dEnd := d.position + getDoorUnits (jsToLower d.door_type) - 1
                decide ((minPos ≤ d.position ∧ d.position ≤ maxPos) ∨
                        (minPos ≤ dEnd ∧ dEnd ≤ maxPos))
              else false
            | none => false)
        if blocked then none
        else
          some ((doors.set i { door1 with position := door2.position }).set j
                  { door2 with position := door1.position })
  | _, _ => none

/-- Stable insertion into a position-sorted list (insert before the first
strictly-or-equally later element). -/
def insertByPosition (d : Door) : List Door → List Door
  | [] => [d]
  | e :: es =>
    if d.position ≤ e.position then d :: e :: es else e :: insertByPosition d es

/-- `.sort((a, b) => a.position - b.position)` — JS `Array.prototype.sort`
is stable, modelled by a stable insertion sort. -/
def sortByPosition : List Door → List Door
  | [] => []
  | d :: ds => insertByPosition d (sortByPosition ds)

/-- The `Map.set` / `Map.get` pair building `leftPosMap` / `rightPosMap`:
doors written in sorted order, later writes overwriting earlier (hence the
reversed search), read back by absolute position. -/
def posIndex (sorted : List Door) (p : ℚ) : Option ℕ :=
  (sorted.enum.reverse.find? (fun pr => pr.2.position = p)).map Prod.fst

/-- `denormalizeDoorPositions`: rewrite every door's absolute unit position
to its sequential index within its (position-sorted) column; doors whose
position is absent from the map keep it. -/
def denormalizeDoorPositions (doors : List Door) : List Door :=
  let leftSorted := sortByPosition (getLeftDoors doors)
  let rightSorted := sortByPosition (getRightDoors doors)
  doors.map (fun d =>
    let sortedCol := if d.colOf = Col.left then leftSorted else rightSorted
    match posIndex sortedCol d.position with
    | some sp => { d with position := (sp : ℚ) }
    | none => d)

/-- The `[position, position + unitSize)` ranges of two doors do not
intersect. -/
def rangesDisjoint (d e : Door) : Prop :=
  d.position + getDoorUnits (jsToLower d.door_type) ≤ e.position ∨
  e.position + getDoorUnits (jsToLower e.door_type) ≤ d.position

/-- The packing invariant: any two distinct doors of the same column have
non-intersecting unit ranges. -/
def noOverlap (doors : List Door) : Prop :=
  ∀ i ∈ List.range doors.length, ∀ j ∈ List.range doors.length,
    i ≠ j →
    (doors.getD i dummyDoor).colOf = (doors.getD j dummyDoor).colOf →
    rangesDisjoint (doors.getD i dummyDoor) (doors.getD j dummyDoor)

/-- `replaceDoors(firstDoor, newDoorType, doorIdsToRemove)`: vacate every
door whose id is listed, then append one door of the new type at the lowest
vacated position (starting the minimum at `firstDoor.position`).  Rejected —
`none`, nothing mutated — when the new door needs more units than were
freed. -/
def replaceDoors (doors : List Door) (firstDoor : Door) (newDoorType : String)
    (doorIdsToRemove : List (ℚ × Col)) : Option (List Door) :=
  let newDoorUnits := getDoorUnits newDoorType
  let doorsToRemove := doors.filter (fun d => doorIdsToRemove.contains (getDoorId d))
  let totalFreedSlots :=
    (doorsToRemove.map (fun d => getDoorUnits (jsToLower d.door_type))).sum
  let minPosition := (doorsToRemove.map Door.position).foldl min firstDoor.position
  if totalFreedSlots < newDoorUnits then none
  else
    some ((doors.filter (fun d => ¬ doorIdsToRemove.contains (getDoorId d))) ++
      [{ firstDoor with door_type := jsToUpper newDoorType, position := minPosition }])

/-! ### Slot projection and empty-slot placement -/

structure Slot where
  unitIndex : ℕ
  column : Col
  door : Option Door := none
  isOccupiedByAbove : Bool := false
deriving DecidableEq, Repr

def dummySlot : Slot := { unitIndex := 0, column := Col.left }

/-- `Array.from({length: totalUnits}, (_, i) => emptySlot i)`. -/
def emptyColumnSlots (totalUnits : ℕ) (col : Col) : List Slot :=
  (List.range totalUnits).map (fun i => { unitIndex := i, column := col })

/-- A JS array index: meaningful only for a non-negative integer position
(the source would fault on any other — no such door arises here). -/
def ratNatIndex (q : ℚ) : Option ℕ :=
  if q.den = 1 ∧ 0 ≤ q.num then some q.num.toNat else none

/-- `placeDoorInSlots`: `for (i = 0; i < units; i++)` writes slot
`position + i` (when in bounds): the door itself at `i = 0`, an
occupied-by-above marker after.  Iterations with `position + i` out of
bounds write nothing, so the loop is cut at `slots.length` as well as at
`units`. -/
def placeDoorInSlots (slots : List Slot) (door : Door) : List Slot :=
  let units := getDoorUnits (jsToLower door.door_type)
  match ratNatIndex door.position with
  | none => slots
  | some start =>
    ((List.range slots.length).takeWhile (fun (i : ℕ) => decide ((i : ℚ) < units))).foldl
      (fun sl i =>
        let idx := start + i
        if idx < sl.length then
          sl.set idx { sl.getD idx dummySlot with
                        door := if i = 0 then some door else none
                        isOccupiedByAbove := decide (0 < i) }
        else sl) slots

/-- `initializeSlots` (sans the height-derived `totalUnits`, a parameter
here): fill each column's empty slots with its doors in array order. -/
def initSlots (doors : List Door) (totalUnits : ℕ) : List Slot × List Slot :=
  ( (getLeftDoors doors).foldl placeDoorInSlots (emptyColumnSlots totalUnits Col.left)
  , (getRightDoors doors).foldl placeDoorInSlots (emptyColumnSlots totalUnits Col.right) )

/-- `findDoorOccupyingSlot`: scan downward from the slot for the nearest
slot holding a door object. -/
def findDoorOccupyingSlot (slots : List Slot) : ℕ → Option Door
  | 0 => (slots.getD 0 dummySlot).door
  | i + 1 =>
    match (slots.getD (i + 1) dummySlot).door with
    | some d => some d
    | none => findDoorOccupyingSlot slots i

/-- The indices visited by `checkEmptySlotHover`'s loop
`for (i = startSlotIndex; i < startSlotIndex + draggedUnits && i < totalUnits; i++)`
(both bounds monotone, so the loop is a `takeWhile`). -/
def hoverIndices (startSlotIndex totalUnits : ℕ) (draggedUnits : ℚ) : List ℕ :=
  (List.range' startSlotIndex (totalUnits - startSlotIndex)).takeWhile
    (fun (i : ℕ) => decide ((i : ℚ) < (startSlotIndex : ℚ) + draggedUnits))

/-- One iteration of `checkEmptySlotHover`'s loop: `availableSlots`
increments on *every* visited slot; an occupied slot additionally records
its door (`slot.door || findDoorOccupyingSlot(i)`) in `affectedDoors` (a
`Set`, modelled as append-if-absent). -/
def hoverStep (slots : List Slot) (acc : ℕ × List Door) (i : ℕ) : ℕ × List Door :=
  let slot := slots.getD i dummySlot
  if slot.door = none ∧ slot.isOccupiedByAbove = false then
    (acc.1 + 1, acc.2)
  else
    let occupyingDoor :=
      match slot.door with
      | some d => some d
      | none => findDoorOccupyingSlot slots i
    let affected :=
      match occupyingDoor with
      | some d => if acc.2.contains d then acc.2 else acc.2 ++ [d]
      | none => acc.2
    (acc.1 + 1, affected)

/-- `checkEmptySlotHover`: walk the hovered range counting `availableSlots`
(note: *every* visited slot counts, empty or occupied — occupied ones are
additionally collected as `affectedDoors` for the replacement flow) and
report `(valid, affectedDoors)`; valid iff the count equals the dragged
unit size and the range end stays within the column. -/
def checkEmptySlotHover (slots : List Slot) (totalUnits startSlotIndex : ℕ)
    (draggedUnits : ℚ) : Bool × List Door :=
  let scan := (hoverIndices startSlotIndex totalUnits draggedUnits).foldl
    (hoverStep slots) (0, [])
  ( decide ((scan.1 : ℚ) = draggedUnits) &&
      decide ((startSlotIndex : ℚ) + draggedUnits ≤ (totalUnits : ℚ))
  , scan.2 )

/-- `createDoorAtSlot`: push a new door of the (uppercased) type at the slot
index; `column: column === 'right' ? 'right' : undefined`. -/
def createDoorAtSlot (doors : List Door) (slotIndex : ℕ) (column : Col)
    (doorType : String) : List Door :=
  doors ++ [{ position := (slotIndex : ℚ)
              door_type := jsToUpper doorType
              column := if column = Col.right then some Col.right else none }]

/-! ### Concrete doors for the modal scenarios -/

/-- C2 swap scenario: a single door and a double door stacked in the left
column of a 3-unit column. -/
def c2sd : Door := { position := 0, door_type := "sd", column := some Col.left }
def c2dd : Door := { position := 1, door_type := "dd", column := some Col.left }

/-- C2 save-time scenario: a packed left column `dd@0, sd@2` (column
omitted — treated as left). -/
def c2dn1 : Door := { position := 0, door_type := "dd" }
def c2dn2 : Door := { position := 2, door_type := "sd" }

/-- C3: a lone double door to replace by a single door. -/
def c3dd : Door := { position := 0, door_type := "dd", column := some Col.left }

/-- A second single door for the equal-size swap witness. -/
def c2sdB : Door := { position := 1, door_type := "sd", column := some Col.left }

/-- C5 packing scenario: `dd` (2 units) at 0 and `sd` (1 unit) at 2 in a
6-unit column. -/
def c5dd : Door := { position := 0, door_type := "dd" }
def c5sd : Door := { position := 2, door_type := "sd" }

/-- The left slot column of the C5 scenario. -/
def c5Slots : List Slot := (initSlots [c5dd, c5sd] 6).1

/-! ## Auto-numbering engine (`updateAutoNumbering`, `konva-drawer-factory.ts`) -/

/-- Door types skipped by the numbering walk (`['md','bms','ms','om']`);
their label is cleared. -/
def isSkippedDoor (t : String) : Bool :=
  ["md", "bms", "ms", "om"].contains t

/-- The standard tenant codes (`sd`,`dd`,`td`,`qd`,`qud`,`htsd*`). -/
def isTenantDoorType (t : String) : Bool :=
  t = "sd" || t = "dd" || t = "td" || t = "qd" || t = "qud" || jsStartsWith t "htsd"

/-- The parcel classifier: not a standard tenant code, and matching
`/^p\d*/` (equivalently: starting with `p`, since `\d*` may be empty) or one
of `sp`, `lp`, `hopper`, `bin`, `hop*`, `td*`. -/
def isParcelDoorType (t : String) : Bool :=
  !isTenantDoorType t &&
    (jsStartsWith t "p" || t = "sp" || t = "lp" || t = "hopper" || t = "bin" ||
      jsStartsWith t "hop" || jsStartsWith t "td")

/-- `processDoor` with counters `(tenantCounter, parcelCounter)`: skip
specials (clearing the label), give parcels `"{parcelCounter}P"`, everything
else the bare tenant counter. -/
def processDoor (c : ℕ × ℕ) (d : Door) : (ℕ × ℕ) × Door :=
  let t := jsToLower d.door_type
  if isSkippedDoor t then (c, { d with label := none })
  else if isParcelDoorType t then
    ((c.1, c.2 + 1), { d with label := some (toString c.2 ++ "P") })
  else ((c.1 + 1, c.2), { d with label := some (toString c.1) })

/-- `forEach(processDoor)` over a door list, threading the counters. -/
def processDoors : (ℕ × ℕ) → List Door → (ℕ × ℕ) × List Door
  | c, [] => (c, [])
  | c, d :: ds =>
    let (c', d') := processDoor c d
    let (c'', ds') := processDoors c' ds
    (c'', d' :: ds')

/-- Reassemble a frame's doors array in its original order from the
separately processed left- and right-column queues (the source mutates the
door objects in place; `filter` order equals queue order). -/
def mergeColumnsBack : List Door → List Door → List Door → List Door
  | [], _, _ => []
  | d :: ds, ls, rs =>
    if d.column = some Col.right then
      match rs with
      | r :: rs' => r :: mergeColumnsBack ds ls rs'
      | [] => d :: mergeColumnsBack ds ls rs
    else
      match ls with
      | l :: ls' => l :: mergeColumnsBack ds ls' rs
      | [] => d :: mergeColumnsBack ds ls rs

/-- One frame of `updateAutoNumbering`: left column first
(`d.column === 'left' || !d.column`), then right, in array order. -/
def updateFrameNumbering (c : ℕ × ℕ) (f : Frame) : (ℕ × ℕ) × Frame :=
  let leftDoors := f.doors.filter (fun d => d.column = some Col.left ∨ d.column = none)
  let rightDoors := f.doors.filter (fun d => d.column = some Col.right)
  let (c1, left') := processDoors c leftDoors
  let (c2, right') := processDoors c1 rightDoors
  (c2, { f with doors := mergeColumnsBack f.doors left' right' })

/-- `updateAutoNumbering` over a wall's frames in array order, starting from
the user-supplied tenant/parcel start values. -/
def updateAutoNumbering (frames : List Frame) (tenantStart parcelStart : ℕ) : List Frame :=
  (frames.foldl (fun (acc : (ℕ × ℕ) × List Frame) f =>
    let (c', f') := updateFrameNumbering acc.1 f
    (c', acc.2 ++ [f'])) ((tenantStart, parcelStart), [])).2

/-- The numbering scenario's frame: left column `[sd, p2, sd]` in position
order. -/
def c7Frame : Frame :=
  { id := "F1"
    doors := [ { position := 0, door_type := "sd", column := some Col.left }
             , { position := 1, door_type := "p2", column := some Col.left }
             , { position := 3, door_type := "sd", column := some Col.left } ] }

/-! ## Reachability and the active-pointer invariant -/

/-- States reachable from `INITIAL_STATE` by the store's mutations named in
the invariant claim. -/
inductive Reachable : ConfiguratorState → Prop where
  | init : Reachable INITIAL_STATE
  | addLevel {s} : Reachable s → Reachable (addLevel s).1
  | removeLevel {s} (lid : ℕ) : Reachable s → Reachable (removeLevel s lid).2
  | addWall {s} (lid : ℕ) : Reachable s → Reachable (addWall s lid).1
  | removeWall {s} (lid wid : ℕ) : Reachable s → Reachable (removeWall s lid wid).2
  | setActiveLevel {s} (lid : ℕ) : Reachable s → Reachable (setActiveLevel s lid)
  | setActiveWall {s} (wid : ℕ) : Reachable s → Reachable (setActiveWall s wid)
  | addFrame {s} (wid : ℕ) (f : Frame) : Reachable s → Reachable (addFrame s wid f)
  | removeFrame {s} (wid : ℕ) (fid : String) : Reachable s → Reachable (removeFrame s wid fid)

/-- `active_level_id` names an existing level and `active_wall_id` one of its
walls. -/
def activePointersValid (s : ConfiguratorState) : Prop :=
  ∃ l ∈ s.levels, l.level_id = s.active_level_id ∧
    ∃ w ∈ l.walls, w.wall_id = s.active_wall_id

instance (s : ConfiguratorState) : Decidable (activePointersValid s) := by
  unfold activePointersValid
  infer_instance

/-- The reachable state witnessing the active-pointer bug: from the initial
state, `addLevel()` (level 1, wall 1), `addWall(1)` (wall 2), then
`removeWall(1, 1)` — a removal inside the *non-active* level 1. -/
def c1FailState : ConfiguratorState :=
  (removeWall ((addWall (addLevel INITIAL_STATE).1 1).1) 1 1).2

end Configurator

namespace Configurator

/-- C1.  The active-pointer invariant does not survive `removeWall` on a
non-active level: after `addLevel(); addWall(1); removeWall(1, 1)` the state
is reachable, keeps `active_level_id = 0`, but `active_wall_id` has been
rewritten to 2 — a wall of level 1, not a child of the active level 0.  The
removal also reassigned the active wall although no active entity was
deleted, so the pointers dangle. -/
theorem c1_removeWall_breaks_active_pointers :
    Reachable c1FailState ∧
    c1FailState.active_level_id = 0 ∧
    c1FailState.active_wall_id = 2 ∧
    ¬ activePointersValid c1FailState := by
  refine ⟨?_, by decide, by decide, by decide⟩
  exact Reachable.removeWall 1 1 (Reachable.addWall 1 (Reachable.addLevel Reachable.init))

/-- C9.  Removing a wall from a level that holds exactly one wall fails for
every wall id: `removeWall` returns `false` and the state is untouched. -/
theorem c9_removeWall_last_wall_fails
    (s : ConfiguratorState) (lid wid : ℕ) (L : Level)
    (hfind : s.levels.find? (fun l => l.level_id = lid) = some L)
    (hone : L.walls.length = 1) :
    removeWall s lid wid = (false, s) := by
  unfold removeWall
  rw [hfind]
  simp [hone]

/-- Witness for C9 at the initial state: level 0 holds exactly one wall, and
`removeWall(0, 0)` fails without touching the state. -/
theorem c9_removeWall_last_wall_fails_witness :
    removeWall INITIAL_STATE 0 0 = (false, INITIAL_STATE) := by
  exact c9_removeWall_last_wall_fails INITIAL_STATE 0 0
    { level_id := 0, level_name := "Level 1"
      walls := [{ wall_id := 0, wall_name := "Wall 1" }], expanded := true }
    (by decide) (by decide)

/-- `find?` is unchanged by filtering with a predicate that holds on
everything the search predicate accepts. -/
theorem find?_filter_of_imp {α : Type} (l : List α) (p q : α → Bool)
    (h : ∀ a, q a = true → p a = true) :
    (l.filter p).find? q = l.find? q := by
  induction l with
  | nil => rfl
  | cons a t ih =>
    cases hp : p a
    · have hq : q a = false := by
        cases hqa : q a
        · rfl
        · exact absurd (h a hqa) (by simp [hp])
      rw [List.filter_cons, if_neg (by simp [hp]),
        List.find?_cons_of_neg _ (by simp [hq]), ih]
    · cases hq : q a
      · rw [List.filter_cons, if_pos (by simp [hp]),
          List.find?_cons_of_neg _ (by simp [hq]),
          List.find?_cons_of_neg _ (by simp [hq]), ih]
      · rw [List.filter_cons, if_pos (by simp [hp]),
          List.find?_cons_of_pos _ (by simp [hq]),
          List.find?_cons_of_pos _ (by simp [hq])]

/-- C10.  A successful `removeLevel` of a non-active level leaves
`active_level_id` alone but unconditionally rewrites `active_wall_id` to the
first wall of the (unchanged) active level — so an active wall that was not
first in its level changes, although nothing active was removed. -/
theorem c10_removeLevel_rewrites_active_wall
    (s : ConfiguratorState) (lid : ℕ) (AL : Level) (w : Wall) (ws : List Wall)
    (hAL : s.levels.find? (fun l => l.level_id = s.active_level_id) = some AL)
    (hwalls : AL.walls = w :: ws)
    (hne : lid ≠ s.active_level_id)
    (hnz : lid ≠ 0)
    (hlen : 2 ≤ s.levels.length) :
    (removeLevel s lid).1 = true ∧
    (removeLevel s lid).2.active_level_id = s.active_level_id ∧
    (removeLevel s lid).2.active_wall_id = w.wall_id := by
  have hne' : s.active_level_id ≠ lid := Ne.symm hne
  have hlen' : ¬ s.levels.length ≤ 1 := by omega
  have hfind :
      (s.levels.filter (fun l => l.level_id ≠ lid)).find?
        (fun l => l.level_id = s.active_level_id) = some AL := by
    rw [find?_filter_of_imp]
    · exact hAL
    · intro a ha
      simp only [decide_eq_true_eq] at ha
      simp only [ha, decide_not, decide_eq_true_eq]
      simp [hne']
  unfold removeLevel
  rw [if_neg hnz, if_neg hlen']
  simp only [if_neg hne', hfind, firstWallId, hwalls]
  exact ⟨trivial, trivial, trivial⟩

/-- Witness for C10: from the two-level state `(addLevel INITIAL_STATE).1`,
removing the non-active level 1 succeeds, keeps level 0 active and resets the
active wall to level 0's first wall (wall 0). -/
theorem c10_removeLevel_rewrites_active_wall_witness :
    (removeLevel (addLevel INITIAL_STATE).1 1).1 = true ∧
    (removeLevel (addLevel INITIAL_STATE).1 1).2.active_level_id = 0 ∧
    (removeLevel (addLevel INITIAL_STATE).1 1).2.active_wall_id = 0 :=
  c10_removeLevel_rewrites_active_wall (addLevel INITIAL_STATE).1 1
    { level_id := 0, level_name := "Level 1"
      walls := [{ wall_id := 0, wall_name := "Wall 1" }], expanded := true }
    { wall_id := 0, wall_name := "Wall 1" } []
    (by decide) (by decide) (by decide) (by decide) (by decide)

/-- `foldl` characterization of `findNearestSnapPoint`'s loop: either no
candidate beat the incoming minimum (the accumulator survives and every
candidate is at least that far), or the result records some candidate at its
squared distance, strictly under the incoming minimum and minimal over the
whole list. -/
theorem snap_foldl_characterization (pos : ℚ × ℚ) :
    ∀ (pts : List SnapPoint) (acc : Option SnapPoint × ℚ),
      (pts.foldl (snapStep pos) acc = acc ∧ ∀ p ∈ pts, acc.2 ≤ distSq pos p) ∨
      (∃ p ∈ pts, (pts.foldl (snapStep pos) acc).1 = some p ∧
        (pts.foldl (snapStep pos) acc).2 = distSq pos p ∧
        (pts.foldl (snapStep pos) acc).2 < acc.2 ∧
        ∀ q ∈ pts, (pts.foldl (snapStep pos) acc).2 ≤ distSq pos q) := by
  intro pts
  induction pts with
  | nil => intro acc; exact Or.inl ⟨rfl, by simp⟩
  | cons p0 t ih =>
    intro acc
    by_cases hd : distSq pos p0 < acc.2
    · have hstep : snapStep pos acc p0 = (some p0, distSq pos p0) := by
        unfold snapStep; rw [if_pos hd]
      rw [List.foldl_cons, hstep]
      rcases ih (some p0, distSq pos p0) with ⟨heq, hall⟩ | ⟨p, hp, h1, h2, h3, h4⟩
      · refine Or.inr ⟨p0, List.mem_cons_self _ _, ?_, ?_, ?_, ?_⟩
        · rw [heq]
        · rw [heq]
        · rw [heq]; exact hd
        · intro q hq
          rcases List.mem_cons.mp hq with hq0 | hqt
          · rw [heq, hq0]
          · exact le_trans (le_of_eq (congrArg Prod.snd heq)) (hall q hqt)
      · refine Or.inr ⟨p, List.mem_cons_of_mem _ hp, h1, h2, lt_trans h3 hd, ?_⟩
        intro q hq
        rcases List.mem_cons.mp hq with hq0 | hqt
        · rw [hq0]; exact le_of_lt h3
        · exact h4 q hqt
    · have hstep : snapStep pos acc p0 = acc := by
        unfold snapStep; rw [if_neg hd]
      rw [List.foldl_cons, hstep]
      rcases ih acc with ⟨heq, hall⟩ | ⟨p, hp, h1, h2, h3, h4⟩
      · refine Or.inl ⟨heq, ?_⟩
        intro q hq
        rcases List.mem_cons.mp hq with hq0 | hqt
        · rw [hq0]; exact le_of_not_lt hd
        · exact hall q hqt
      · refine Or.inr ⟨p, List.mem_cons_of_mem _ hp, h1, h2, h3, ?_⟩
        intro q hq
        rcases List.mem_cons.mp hq with hq0 | hqt
        · rw [hq0]
          exact le_of_lt (lt_of_lt_of_le h3 (le_of_not_lt hd))
        · exact h4 q hqt

/-- C8.  The snap engine emits exactly 9 candidates per bounding box;
`findNearestSnapPoint` returns nothing iff every candidate is at or beyond
the threshold, and otherwise some strictly-sub-threshold candidate of
minimal distance over all candidates.  Concretely (threshold 30): a cursor
25px from the (0,0) corner of the box (0,0)–(100,100) snaps to that corner,
and a cursor 35px away gets no snap point. -/
theorem c8_snap_engine :
    (∀ x y w h : ℚ, (getSnapPointsForGroup x y w h).length = 9) ∧
    (∀ (pos : ℚ × ℚ) (pts : List SnapPoint),
        findNearestSnapPoint pos pts = none ↔
          ∀ p ∈ pts, SNAP_THRESHOLD ^ 2 ≤ distSq pos p) ∧
    (∀ (pos : ℚ × ℚ) (pts : List SnapPoint) (q : ℚ × ℚ),
        findNearestSnapPoint pos pts = some q →
          ∃ p ∈ pts, (p.x, p.y) = q ∧ distSq pos p < SNAP_THRESHOLD ^ 2 ∧
            ∀ r ∈ pts, distSq pos p ≤ distSq pos r) ∧
    findNearestSnapPoint (-15, -20) (getSnapPointsForGroup 0 0 100 100) = some (0, 0) ∧
    distSq (-15, -20) { x := 0, y := 0, type := "corner" } = 25 ^ 2 ∧
    findNearestSnapPoint (-21, -28) (getSnapPointsForGroup 0 0 100 100) = none ∧
    distSq (-21, -28) { x := 0, y := 0, type := "corner" } = 35 ^ 2 := by
  refine ⟨fun x y w h => rfl, ?_, ?_,
    by norm_num [findNearestSnapPoint, getSnapPointsForGroup, snapStep, distSq, SNAP_THRESHOLD],
    by norm_num [distSq],
    by norm_num [findNearestSnapPoint, getSnapPointsForGroup, snapStep, distSq, SNAP_THRESHOLD],
    by norm_num [distSq]⟩
  · intro pos pts
    unfold findNearestSnapPoint
    constructor
    · intro hnone p hp
      rcases snap_foldl_characterization pos pts (none, SNAP_THRESHOLD ^ 2) with
        ⟨heq, hall⟩ | ⟨p', _, h1, _, _, _⟩
      · exact hall p hp
      · rw [h1] at hnone
        simp at hnone
    · intro hall
      rcases snap_foldl_characterization pos pts (none, SNAP_THRESHOLD ^ 2) with
        ⟨heq, _⟩ | ⟨p', hp', h1, h2, h3, _⟩
      · rw [heq]
        rfl
      · rw [h2] at h3
        exact absurd h3 (not_lt.mpr (hall p' hp'))
  · intro pos pts q hsome
    unfold findNearestSnapPoint at hsome
    rcases snap_foldl_characterization pos pts (none, SNAP_THRESHOLD ^ 2) with
      ⟨heq, _⟩ | ⟨p, hp, h1, h2, h3, h4⟩
    · rw [heq] at hsome
      exact absurd hsome (by simp)
    · rw [h1] at hsome
      simp only [Option.map] at hsome
      refine ⟨p, hp, Option.some.inj hsome, ?_, ?_⟩
      · rw [← h2]; exact h3
      · intro r hr
        rw [← h2]; exact h4 r hr

/-- C4 counterexample.  With siblings B at x=100 and C at x=220 (widths
100), dropping the dragged frame A at x=250 computes insertion index 1 — C's
midpoint 270 lies to the right of 250 — so the new order is [B, A, C], not
the [B, C, A] the claim asserts. -/
theorem c4_reorder_cex :
    computeInsertIndex 250 c4Siblings = 1 ∧
    reorderFrames [frameA, frameB, frameC] 0 (computeInsertIndex 250 c4Siblings)
      = [frameB, frameA, frameC] ∧
    reorderFrames [frameA, frameB, frameC] 0 (computeInsertIndex 250 c4Siblings)
      ≠ [frameB, frameC, frameA] := by
  have hidx : computeInsertIndex 250 c4Siblings = 1 := by
    norm_num [computeInsertIndex, c4Siblings]
  refine ⟨hidx, ?_, ?_⟩ <;>
    simp [hidx, reorderFrames, spliceInsert, frameA, frameB, frameC]

/-- C4 as amended.  Dropping A at x=250 inserts it before C (order
[B, A, C]), because the scan stops at the first sibling whose midpoint —
C's, at 270 — is right of the drop x; insertion at the end (order
[B, C, A]) happens only when the drop x is at or beyond every midpoint,
e.g. x=280. -/
theorem c4_reorder_amended :
    reorderFrames [frameA, frameB, frameC] 0 (computeInsertIndex 250 c4Siblings)
      = [frameB, frameA, frameC] ∧
    (250 : ℚ) < 220 + 100 / 2 ∧
    computeInsertIndex 280 c4Siblings = 2 ∧
    reorderFrames [frameA, frameB, frameC] 0 (computeInsertIndex 280 c4Siblings)
      = [frameB, frameC, frameA] := by
  have hidx : computeInsertIndex 250 c4Siblings = 1 := by
    norm_num [computeInsertIndex, c4Siblings]
  have hidx' : computeInsertIndex 280 c4Siblings = 2 := by
    norm_num [computeInsertIndex, c4Siblings]
  refine ⟨?_, by norm_num, hidx', ?_⟩ <;>
    simp [hidx, hidx', reorderFrames, spliceInsert, frameA, frameB, frameC]

/-- `rangesDisjoint` is symmetric. -/
theorem rangesDisjoint_symm {d e : Door} (h : rangesDisjoint d e) :
    rangesDisjoint e d := Or.symm h

/-! Catalog evaluations used by the concrete scenarios (proved by `decide`
so that later `simp` calls never unfold the string primitives). -/

theorem units_sd : getDoorUnits (jsToLower "sd") = 1 := by decide
theorem units_dd : getDoorUnits (jsToLower "dd") = 2 := by decide
theorem units_td : getDoorUnits (jsToLower "td") = 3 := by decide
theorem units_of_sd : getDoorUnits "sd" = 1 := by decide
theorem units_of_td : getDoorUnits "td" = 3 := by decide
theorem range_two : List.range 2 = [0, 1] := by decide

/-- `noOverlap` on a two-door list says exactly: if the doors share a
column, their ranges are disjoint. -/
theorem noOverlap_pair (d e : Door) :
    noOverlap [d, e] ↔ (d.colOf = e.colOf → rangesDisjoint d e) := by
  constructor
  · intro h hcol
    exact h 0 (by simp) 1 (by simp) (by omega) hcol
  · intro h i hi j hj hne hcol
    simp only [List.length_cons, List.length_nil, List.mem_range] at hi hj
    interval_cases i <;> interval_cases j
    · exact absurd rfl hne
    · exact h hcol
    · exact rangesDisjoint_symm (h hcol.symm)
    · exact absurd rfl hne

/-- C2 counterexample.  (a) A successful `trySwapDoors` of two doors of
different unit sizes (`sd`@0 and `dd`@1 in a 3-unit left column — every
check passes) exchanges the two positions and produces `sd`@1, `dd`@0,
whose ranges [1,2) and [0,2) intersect: the swap does not preserve the
no-overlap invariant.  (b) The save-time conversion
`denormalizeDoorPositions` maps the overlap-free column `dd`@0, `sd`@2 to
`dd`@0, `sd`@1 — sequential indices whose unit ranges [0,2) and [1,2)
intersect. -/
theorem c2_no_overlap_cex :
    noOverlap [c2sd, c2dd] ∧
    trySwapDoors [c2sd, c2dd] 0 1 3
      = some [{ c2sd with position := 1 }, { c2dd with position := 0 }] ∧
    ¬ noOverlap [{ c2sd with position := 1 }, { c2dd with position := 0 }] ∧
    noOverlap [c2dn1, c2dn2] ∧
    denormalizeDoorPositions [c2dn1, c2dn2] = [c2dn1, { c2dn2 with position := 1 }] ∧
    ¬ noOverlap [c2dn1, { c2dn2 with position := 1 }] := by
  refine ⟨?_, ?_, ?_, ?_, ?_, ?_⟩
  · rw [noOverlap_pair]
    intro _
    left
    norm_num [rangesDisjoint, c2sd, c2dd, units_sd, units_dd]
  · norm_num [trySwapDoors, c2sd, c2dd, units_sd, units_dd, range_two]
  · rw [noOverlap_pair]
    intro h
    have hd := h (by decide)
    rcases hd with hd | hd <;>
      norm_num [rangesDisjoint, c2sd, c2dd, units_sd, units_dd] at hd
  · rw [noOverlap_pair]
    intro _
    left
    norm_num [rangesDisjoint, c2dn1, c2dn2, units_sd, units_dd]
  · norm_num [denormalizeDoorPositions, c2dn1, c2dn2, getLeftDoors, getRightDoors,
      sortByPosition, insertByPosition, posIndex, Door.colOf, List.enum, List.enumFrom]
  · rw [noOverlap_pair]
    intro h
    have hd := h (by decide)
    rcases hd with hd | hd <;>
      norm_num [rangesDisjoint, c2dn1, c2dn2, units_sd, units_dd] at hd

/-- `rangesDisjoint` depends only on the positions and unit sizes. -/
theorem rangesDisjoint_congr {a b a' b' : Door}
    (hpa : a.position = a'.position) (hpb : b.position = b'.position)
    (hua : getDoorUnits (jsToLower a.door_type) = getDoorUnits (jsToLower a'.door_type))
    (hub : getDoorUnits (jsToLower b.door_type) = getDoorUnits (jsToLower b'.door_type))
    (h : rangesDisjoint a' b') : rangesDisjoint a b := by
  unfold rangesDisjoint at *
  rw [hpa, hpb, hua, hub]
  exact h

theorem getD_eq_get? (l : List Door) (n : ℕ) :
    l.getD n dummyDoor = (l.get? n).getD dummyDoor := rfl

/-- C2 as amended.  A successful `trySwapDoors` of two doors of the same
column and of *equal unit size* preserves the no-overlap invariant: the swap
merely exchanges the two positions, so the column's multiset of occupied
ranges is unchanged. -/
theorem c2_swap_equal_units_preserves
    (doors : List Door) (i j totalUnits : ℕ) (di dj : Door) (l' : List Door)
    (hij : i ≠ j)
    (hdi : doors.get? i = some di)
    (hdj : doors.get? j = some dj)
    (hcol : di.colOf = dj.colOf)
    (hunits : getDoorUnits (jsToLower di.door_type) = getDoorUnits (jsToLower dj.door_type))
    (hswap : trySwapDoors doors i j totalUnits = some l')
    (hpre : noOverlap doors) :
    noOverlap l' := by
  have hi : i < doors.length := by
    rcases List.get?_eq_some.mp hdi with ⟨h, _⟩
    exact h
  have hj : j < doors.length := by
    rcases List.get?_eq_some.mp hdj with ⟨h, _⟩
    exact h
  unfold trySwapDoors at hswap
  rw [hdi, hdj] at hswap
  simp only [ne_eq] at hswap
  split at hswap
  · exact absurd hswap (by simp)
  split at hswap
  · exact absurd hswap (by simp)
  split at hswap
  · exact absurd hswap (by simp)
  have hl' : l' = (doors.set i { di with position := dj.position }).set j
      { dj with position := di.position } := (Option.some.inj hswap).symm
  have hlen : l'.length = doors.length := by
    rw [hl', List.length_set, List.length_set]
  have hgdi : doors.getD i dummyDoor = di := by
    rw [getD_eq_get?, hdi]
    rfl
  have hgdj : doors.getD j dummyDoor = dj := by
    rw [getD_eq_get?, hdj]
    rfl
  have hget : ∀ k, l'.getD k dummyDoor =
      if k = j then { dj with position := di.position }
      else if k = i then { di with position := dj.position }
      else doors.getD k dummyDoor := by
    intro k
    by_cases hkj : k = j
    · subst hkj
      rw [hl', getD_eq_get?, List.get?_set_eq, List.get?_set_ne _ _ hij, hdj,
        if_pos rfl]
      rfl
    · by_cases hki : k = i
      · subst hki
        rw [hl', getD_eq_get?, List.get?_set_ne _ _ (Ne.symm hkj),
          List.get?_set_eq, hdi, if_neg hkj, if_pos rfl]
        rfl
      · rw [hl', getD_eq_get?, List.get?_set_ne _ _ (Ne.symm hkj),
          List.get?_set_ne _ _ (Ne.symm hki), if_neg hkj, if_neg hki,
          getD_eq_get?]
  have hcolB : ({ dj with position := di.position } : Door).colOf = dj.colOf := rfl
  have hcolA : ({ di with position := dj.position } : Door).colOf = di.colOf := rfl
  have hpB : ({ dj with position := di.position } : Door).position = di.position := rfl
  have hpA : ({ di with position := dj.position } : Door).position = dj.position := rfl
  have huB : getDoorUnits (jsToLower ({ dj with position := di.position } : Door).door_type)
      = getDoorUnits (jsToLower dj.door_type) := rfl
  have huA : getDoorUnits (jsToLower ({ di with position := dj.position } : Door).door_type)
      = getDoorUnits (jsToLower di.door_type) := rfl
  intro k hk m hm hne hcolkm
  rw [hlen] at hk hm
  have hk' : k < doors.length := List.mem_range.mp hk
  have hm' : m < doors.length := List.mem_range.mp hm
  have hprecol : (doors.getD i dummyDoor).colOf = (doors.getD j dummyDoor).colOf := by
    rw [hgdi, hgdj]
    exact hcol
  rw [hget k, hget m] at hcolkm ⊢
  by_cases hkj : k = j
  · rw [if_pos hkj] at hcolkm ⊢
    rw [hcolB] at hcolkm
    by_cases hmi : m = i
    · rw [hmi, if_neg hij, if_pos rfl] at hcolkm ⊢
      have base := hpre i (List.mem_range.mpr hi) j (List.mem_range.mpr hj) hij hprecol
      rw [hgdi, hgdj] at base
      exact @rangesDisjoint_congr _ _ di dj hpB hpA (huB.trans hunits.symm)
        (huA.trans hunits) base
    · by_cases hmj : m = j
      · exact absurd (hkj.trans hmj.symm) hne
      · rw [if_neg hmj, if_neg hmi] at hcolkm ⊢
        have base := hpre i (List.mem_range.mpr hi) m (List.mem_range.mpr hm')
          (fun hh => hmi hh.symm) (by rw [hgdi]; exact hcol.trans hcolkm)
        rw [hgdi] at base
        exact @rangesDisjoint_congr _ _ di (doors.getD m dummyDoor) hpB rfl
          (huB.trans hunits.symm) rfl base
  · by_cases hki : k = i
    · rw [if_neg hkj, if_pos hki] at hcolkm ⊢
      rw [hcolA] at hcolkm
      by_cases hmj : m = j
      · rw [hmj, if_pos rfl] at hcolkm ⊢
        have base := hpre j (List.mem_range.mpr hj) i (List.mem_range.mpr hi)
          (Ne.symm hij) (by rw [hgdi, hgdj]; exact hcol.symm)
        rw [hgdi, hgdj] at base
        exact @rangesDisjoint_congr _ _ dj di hpA hpB (huA.trans hunits)
          (huB.trans hunits.symm) base
      · by_cases hmi : m = i
        · exact absurd (hki.trans hmi.symm) hne
        · rw [if_neg hmj, if_neg hmi] at hcolkm ⊢
          have base := hpre j (List.mem_range.mpr hj) m (List.mem_range.mpr hm')
            (fun hh => hmj hh.symm) (by rw [hgdj]; exact hcol.symm.trans hcolkm)
          rw [hgdj] at base
          exact @rangesDisjoint_congr _ _ dj (doors.getD m dummyDoor) hpA rfl
            (huA.trans hunits) rfl base
    · rw [if_neg hkj, if_neg hki] at hcolkm ⊢
      by_cases hmj : m = j
      · rw [hmj, if_pos rfl] at hcolkm ⊢
        rw [hcolB] at hcolkm
        have base := hpre k (List.mem_range.mpr hk') i (List.mem_range.mpr hi) hki
          (by rw [hgdi]; exact hcolkm.trans hcol.symm)
        rw [hgdi] at base
        exact @rangesDisjoint_congr _ _ (doors.getD k dummyDoor) di rfl hpB rfl
          (huB.trans hunits.symm) base
      · by_cases hmi : m = i
        · rw [hmi, if_neg hij, if_pos rfl] at hcolkm ⊢
          rw [hcolA] at hcolkm
          have base := hpre k (List.mem_range.mpr hk') j (List.mem_range.mpr hj) hkj
            (by rw [hgdj]; exact hcolkm.trans hcol)
          rw [hgdj] at base
          exact @rangesDisjoint_congr _ _ (doors.getD k dummyDoor) dj rfl hpA rfl
            (huA.trans hunits) base
        · rw [if_neg hmj, if_neg hmi] at hcolkm ⊢
          exact hpre k (List.mem_range.mpr hk') m (List.mem_range.mpr hm') hne hcolkm

/-- Witness for C2-as-amended: swapping the two single doors `sd`@0 and
`sd`@1 of a 2-unit left column succeeds and the resulting column is still
overlap-free. -/
theorem c2_swap_equal_units_preserves_witness :
    noOverlap [{ c2sd with position := 1 }, { c2sdB with position := 0 }] := by
  refine c2_swap_equal_units_preserves [c2sd, c2sdB] 0 1 2 c2sd c2sdB
    _ (by omega) rfl rfl rfl rfl ?_ ?_
  · norm_num [trySwapDoors, c2sd, c2sdB, units_sd, range_two]
  · rw [noOverlap_pair]
    intro _
    left
    norm_num [rangesDisjoint, c2sd, c2sdB, units_sd]

theorem foldl_min_le_init (l : List ℚ) (a : ℚ) : l.foldl min a ≤ a := by
  induction l generalizing a with
  | nil => exact le_refl a
  | cons c t ih => exact le_trans (ih (min a c)) (min_le_left a c)

theorem foldl_min_le (l : List ℚ) (a : ℚ) : ∀ b ∈ l, l.foldl min a ≤ b := by
  induction l generalizing a with
  | nil =>
    intro b hb
    cases hb
  | cons c t ih =>
    intro b hb
    rcases List.mem_cons.mp hb with hbc | hbt
    · rw [List.foldl_cons, hbc]
      exact le_trans (foldl_min_le_init t (min a c)) (min_le_right a c)
    · exact ih (min a c) b hbt

theorem foldl_min_mem (l : List ℚ) (a : ℚ) : l.foldl min a = a ∨ l.foldl min a ∈ l := by
  induction l generalizing a with
  | nil => exact Or.inl rfl
  | cons c t ih =>
    rcases ih (min a c) with h | h
    · rcases min_choice a c with hm | hm
      · exact Or.inl (by rw [List.foldl_cons, h, hm])
      · exact Or.inr (by rw [List.foldl_cons, h, hm]; exact List.mem_cons_self c t)
    · exact Or.inr (List.mem_cons_of_mem c (by rw [List.foldl_cons]; exact h))

/-- C3 counterexample.  `replaceDoors` does not demand that the vacated unit
sizes *equal* the new door's unit size — it only rejects when the new door
needs *more*: replacing the lone `dd` (2 units) by an `sd` (1 unit) succeeds
even though 1 ≠ 2, leaving one unit uncovered. -/
theorem c3_replace_cex :
    replaceDoors [c3dd] c3dd "sd" [((0 : ℚ), Col.left)]
      = some [{ c3dd with door_type := jsToUpper "sd", position := 0 }] ∧
    jsToUpper "sd" = "SD" ∧
    getDoorUnits "sd" = 1 ∧
    getDoorUnits (jsToLower c3dd.door_type) = 2 := by
  refine ⟨?_, by decide, units_of_sd, units_dd⟩
  norm_num [replaceDoors, c3dd, units_dd, units_of_sd, getDoorId, Door.colOf]

/-- C3 as amended.  `replaceDoors` succeeds iff the new door's unit size is
*at most* the sum of the vacated doors' unit sizes (not: exactly equal).  On
success the result keeps exactly the non-vacated doors and appends one new
door whose type is the (uppercased) requested type and whose position is the
minimum position over the vacated doors and `firstDoor` — a minimum that is
attained by a vacated door, since the caller lists `firstDoor` among the
removed ids.  On failure — `none` — no doors are changed. -/
theorem c3_replace_amended (doors : List Door) (firstDoor : Door) (ty : String)
    (ids : List (ℚ × Col))
    (hfd : firstDoor ∈ doors) (hfid : ids.contains (getDoorId firstDoor) = true) :
    ((replaceDoors doors firstDoor ty ids).isSome ↔
      getDoorUnits ty ≤ ((doors.filter (fun d => ids.contains (getDoorId d))).map
        (fun d => getDoorUnits (jsToLower d.door_type))).sum) ∧
    (∀ l', replaceDoors doors firstDoor ty ids = some l' →
      l' = (doors.filter (fun d => ¬ ids.contains (getDoorId d))) ++
        [{ firstDoor with
            door_type := jsToUpper ty,
            position := ((doors.filter (fun d => ids.contains (getDoorId d))).map
              Door.position).foldl min firstDoor.position }]) ∧
    (∀ d ∈ doors.filter (fun d => ids.contains (getDoorId d)),
        ((doors.filter (fun d => ids.contains (getDoorId d))).map Door.position).foldl
          min firstDoor.position ≤ d.position) ∧
    (((doors.filter (fun d => ids.contains (getDoorId d))).map Door.position).foldl
        min firstDoor.position
      ∈ (doors.filter (fun d => ids.contains (getDoorId d))).map Door.position) := by
  have heq : replaceDoors doors firstDoor ty ids =
      if ((doors.filter (fun d => ids.contains (getDoorId d))).map
            (fun d => getDoorUnits (jsToLower d.door_type))).sum < getDoorUnits ty
      then none
      else some ((doors.filter (fun d => ¬ ids.contains (getDoorId d))) ++
        [{ firstDoor with
            door_type := jsToUpper ty,
            position := ((doors.filter (fun d => ids.contains (getDoorId d))).map
              Door.position).foldl min firstDoor.position }]) := rfl
  have hmemfd : firstDoor ∈ doors.filter (fun d => ids.contains (getDoorId d)) :=
    List.mem_filter.mpr ⟨hfd, hfid⟩
  refine ⟨?_, ?_, ?_, ?_⟩
  · rw [heq]
    by_cases hlt : ((doors.filter (fun d => ids.contains (getDoorId d))).map
        (fun d => getDoorUnits (jsToLower d.door_type))).sum < getDoorUnits ty
    · rw [if_pos hlt]
      exact iff_of_false (by simp) (not_le.mpr hlt)
    · rw [if_neg hlt]
      exact iff_of_true (by simp) (not_lt.mp hlt)
  · intro l' h
    rw [heq] at h
    by_cases hlt : ((doors.filter (fun d => ids.contains (getDoorId d))).map
        (fun d => getDoorUnits (jsToLower d.door_type))).sum < getDoorUnits ty
    · rw [if_pos hlt] at h
      exact absurd h (by simp)
    · rw [if_neg hlt] at h
      exact (Option.some.inj h).symm
  · intro d hd
    exact foldl_min_le _ firstDoor.position d.position (List.mem_map_of_mem Door.position hd)
  · rcases foldl_min_mem ((doors.filter (fun d => ids.contains (getDoorId d))).map
        Door.position) firstDoor.position with h | h
    · rw [h]
      exact List.mem_map_of_mem Door.position hmemfd
    · exact h

/-- Witness for C3-as-amended: replacing the lone `dd` by an `sd` (1 unit ≤
2 freed units) is accepted. -/
theorem c3_replace_amended_witness :
    (replaceDoors [c3dd] c3dd "sd" [((0 : ℚ), Col.left)]).isSome := by
  have h := c3_replace_amended [c3dd] c3dd "sd" [((0 : ℚ), Col.left)]
    (by decide) (by decide)
  refine h.1.mpr ?_
  norm_num [c3dd, getDoorId, Door.colOf, units_dd, units_of_sd]

theorem hoverStep_fst (slots : List Slot) (acc : ℕ × List Door) (i : ℕ) :
    (hoverStep slots acc i).1 = acc.1 + 1 := by
  simp only [hoverStep]
  split
  · rfl
  · rfl

theorem foldl_hoverStep_fst (slots : List Slot) :
    ∀ (idxs : List ℕ) (acc : ℕ × List Door),
      (idxs.foldl (hoverStep slots) acc).1 = acc.1 + idxs.length := by
  intro idxs
  induction idxs with
  | nil => intro acc; simp
  | cons i t ih =>
    intro acc
    rw [List.foldl_cons, ih, hoverStep_fst, List.length_cons]
    omega

theorem takeWhile_range'_lt_length (b : ℕ) :
    ∀ (n s : ℕ),
      ((List.range' s n).takeWhile (fun i => decide (i < b))).length = min n (b - s) := by
  intro n
  induction n with
  | zero => intro s; simp
  | succ n ih =>
    intro s
    rw [List.range'_succ, List.takeWhile_cons]
    by_cases hb : s < b
    · rw [if_pos (by simpa using hb), List.length_cons, ih (s + 1)]
      omega
    · rw [if_neg (by simpa using hb)]
      simp only [List.length_nil]
      omega

/-- For an integral dragged size, the hover loop's index list is the plain
take-while over naturals. -/
theorem hoverIndices_nat (start total u : ℕ) :
    hoverIndices start total (u : ℚ)
      = (List.range' start (total - start)).takeWhile (fun i => decide (i < start + u)) := by
  unfold hoverIndices
  congr 1
  funext i
  rw [decide_eq_decide]
  constructor
  · intro h
    exact_mod_cast h
  · intro h
    exact_mod_cast h

/-- The hover check's verdict ignores slot occupancy entirely: for an
integral dragged unit size it is exactly the bounds test
`startSlotIndex + unitSize ≤ totalUnits`. -/
theorem hover_valid_eq (slots : List Slot) (totalUnits startSlotIndex u : ℕ) :
    (checkEmptySlotHover slots totalUnits startSlotIndex (u : ℚ)).1
      = decide (startSlotIndex + u ≤ totalUnits) := by
  have hlen : (hoverIndices startSlotIndex totalUnits (u : ℚ)).length
      = min (totalUnits - startSlotIndex) u := by
    rw [hoverIndices_nat, takeWhile_range'_lt_length]
    have huu : startSlotIndex + u - startSlotIndex = u := by omega
    rw [huu]
  have hfst : ((hoverIndices startSlotIndex totalUnits (u : ℚ)).foldl
      (hoverStep slots) (0, [])).1 = min (totalUnits - startSlotIndex) u := by
    rw [foldl_hoverStep_fst, hlen]
    simp
  simp only [checkEmptySlotHover]
  rw [hfst]
  have h1 : (((min (totalUnits - startSlotIndex) u : ℕ) : ℚ) = (u : ℚ)) ↔
      (min (totalUnits - startSlotIndex) u = u) := Nat.cast_inj
  have h2 : ((startSlotIndex : ℚ) + (u : ℚ) ≤ (totalUnits : ℚ)) ↔
      (startSlotIndex + u ≤ totalUnits) := by
    constructor
    · intro h
      exact_mod_cast h
    · intro h
      exact_mod_cast h
  clear h1 h2
  by_cases hB : startSlotIndex + u ≤ totalUnits
  · have hA : min (totalUnits - startSlotIndex) u = u :=
      min_eq_right (by omega)
    have hAq : (((min (totalUnits - startSlotIndex) u : ℕ) : ℚ)) = (u : ℚ) := by
      exact_mod_cast hA
    have hBq : (startSlotIndex : ℚ) + (u : ℚ) ≤ (totalUnits : ℚ) := by
      exact_mod_cast hB
    simp [hAq, hBq, hB]
  · have hBq : ¬ ((startSlotIndex : ℚ) + (u : ℚ) ≤ (totalUnits : ℚ)) := by
      intro hc
      exact hB (by exact_mod_cast hc)
    simp [hBq, hB]

/-- The C5 hover evaluated: hovering a `td` over start unit 3 of the
scenario column is VALID with no affected doors (units 3–5 are free). -/
theorem c5_hover_eval :
    checkEmptySlotHover c5Slots 6 3 (getDoorUnits "td") = (true, []) := by
  have hidx : hoverIndices 3 6 (getDoorUnits "td") = [3, 4, 5] := by
    rw [show getDoorUnits "td" = ((3 : ℕ) : ℚ) by norm_num [units_of_td],
      hoverIndices_nat]
    decide
  have hscan : [3, 4, 5].foldl (hoverStep c5Slots) (0, []) = (3, []) := by decide
  simp only [checkEmptySlotHover]
  rw [hidx, hscan, units_of_td]
  norm_num

/-- C7.  With tenantStart=101 and parcelStart=1, numbering a wall holding
one frame whose left column is `[sd, p2, sd]` in position order yields the
labels `["101", "1P", "102"]`; in general a non-skipped non-parcel door gets
the bare tenant counter (which then increments by 1) and a parcel-classified
door gets the parcel counter suffixed with `P` (which then increments
by 1). -/
theorem c7_auto_numbering :
    ((updateAutoNumbering [c7Frame] 101 1).map (fun f => f.doors.map Door.label))
      = [[some "101", some "1P", some "102"]] ∧
    (∀ (c : ℕ × ℕ) (d : Door),
        isSkippedDoor (jsToLower d.door_type) = false →
        isParcelDoorType (jsToLower d.door_type) = false →
        processDoor c d = ((c.1 + 1, c.2), { d with label := some (toString c.1) })) ∧
    (∀ (c : ℕ × ℕ) (d : Door),
        isSkippedDoor (jsToLower d.door_type) = false →
        isParcelDoorType (jsToLower d.door_type) = true →
        processDoor c d = ((c.1, c.2 + 1), { d with label := some (toString c.2 ++ "P") })) := by
  refine ⟨by decide, ?_, ?_⟩
  · intro c d h1 h2
    simp [processDoor, h1, h2]
  · intro c d h1 h2
    simp [processDoor, h1, h2]

/-- C6 counterexample.  `c6Snapshot` is a valid persisted snapshot (an
export of the initial state, with no depot color); loading it into a session
whose config holds a depot color and saving straight back yields a snapshot
that now carries that depot color — load-then-save is not the identity,
because `loadStateFromProject` only overwrites config fields whose incoming
value is truthy. -/
theorem c6_roundtrip_cex :
    exportStateForProject (loadStateFromProject c6PreState c6Snapshot) ≠ c6Snapshot ∧
    (exportStateForProject (loadStateFromProject c6PreState c6Snapshot)).depotColor
      = some "0x8b4513_Bronze" ∧
    c6Snapshot.depotColor = none := by
  refine ⟨by decide, by decide, by decide⟩

/-- C6 as amended.  Load-then-save reproduces the snapshot exactly when the
snapshot's levels are non-empty, its config strings and module mode are
non-empty, and each optional config string (`depotColor`, `doorIdFont`)
is either present and non-empty or absent both in the snapshot and in the
pre-load session config. -/
theorem c6_roundtrip_amended (s : ConfiguratorState) (x : ProjectState)
    (hlv : x.levels ≠ [])
    (h1 : x.installType ≠ "") (h2 : x.kitColorValue ≠ "") (h3 : x.kitColorName ≠ "")
    (h4 : x.adaMode ≠ "") (h5 : x.deliveryMode ≠ "") (h6 : x.appMode ≠ "")
    (h7 : x.doorIdType ≠ "") (h8 : x.lockType ≠ "") (h9 : x.moduleMode ≠ "")
    (hdc : match x.depotColor with
           | some d => d ≠ ""
           | none => s.config.depot_color = none)
    (hdf : match x.doorIdFont with
           | some d => d ≠ ""
           | none => s.config.door_id_font = none) :
    exportStateForProject (loadStateFromProject s x) = x := by
  cases x with
  | mk levels activeLevelId activeWallId installType kitColorValue kitColorName adaMode
      deliveryMode appMode doorIdType lockType depotColor doorIdFont tenantNumStart
      parcelNumStart configurationNumberArray moduleMode =>
    simp only at h1 h2 h3 h4 h5 h6 h7 h8 h9 hlv hdc hdf
    have hlv' : levels.isEmpty = false := by
      simpa [List.isEmpty_iff] using hlv
    cases depotColor with
    | none =>
      cases doorIdFont with
      | none =>
        simp_all [exportStateForProject, loadStateFromProject, loadConfig,
          strTruthy, optTruthy]
      | some df =>
        simp_all [exportStateForProject, loadStateFromProject, loadConfig,
          strTruthy, optTruthy]
    | some dc =>
      cases doorIdFont with
      | none =>
        simp_all [exportStateForProject, loadStateFromProject, loadConfig,
          strTruthy, optTruthy]
      | some df =>
        simp_all [exportStateForProject, loadStateFromProject, loadConfig,
          strTruthy, optTruthy]

/-- Witness for C6-as-amended: exporting the initial state and re-loading it
into the initial session round-trips exactly. -/
theorem c6_roundtrip_amended_witness :
    exportStateForProject
        (loadStateFromProject INITIAL_STATE (exportStateForProject INITIAL_STATE))
      = exportStateForProject INITIAL_STATE :=
  c6_roundtrip_amended INITIAL_STATE (exportStateForProject INITIAL_STATE)
    (by decide) (by decide) (by decide) (by decide) (by decide) (by decide)
    (by decide) (by decide) (by decide) (by decide) rfl rfl

/-- C5 counterexample.  In the spec's packing scenario (6-unit column,
`dd` at 0, `sd` at 2) the claimed-to-fail placement of a `td` at start
unit 3 in fact SUCCEEDS: `td` is 3 catalog units (not 2 as the claim says),
the hover check reports valid with no affected doors, and
`createDoorAtSlot` then appends the new door unconditionally. -/
theorem c5_placement_cex :
    checkEmptySlotHover c5Slots 6 3 (getDoorUnits "td") = (true, []) ∧
    getDoorUnits "td" = 3 ∧
    createDoorAtSlot [c5dd, c5sd] 3 Col.left "td"
      = [c5dd, c5sd, { position := 3, door_type := "TD", column := none }] := by
  refine ⟨c5_hover_eval, units_of_td, ?_⟩
  simp only [createDoorAtSlot, jsToUpper]
  norm_num
  decide

/-- C5 amended.  `checkEmptySlotHover`'s verdict ignores slot occupancy
entirely: for a whole-number dragged unit size it equals the pure bounds
test `startSlotIndex + unitSize ≤ totalUnits` (occupied slots are merely
collected as `affectedDoors` for the replacement flow).  In particular the
spec's packing scenario succeeds — `td` is 3 units and 3 + 3 ≤ 6 — and
`createDoorAtSlot` appends the new door at the raw slot index without any
further check. -/
theorem c5_placement_amended (slots : List Slot) (totalUnits startSlotIndex u : ℕ) :
    ((checkEmptySlotHover slots totalUnits startSlotIndex (u : ℚ)).1
        = decide (startSlotIndex + u ≤ totalUnits)) ∧
    checkEmptySlotHover c5Slots 6 3 (getDoorUnits "td") = (true, []) ∧
    getDoorUnits "td" = 3 ∧
    ∀ (doors : List Door) (i : ℕ) (c : Col) (t : String),
      createDoorAtSlot doors i c t
        = doors ++ [{ position := (i : ℚ)
                      door_type := jsToUpper t
                      column := if c = Col.right then some Col.right else none }] := by
  refine ⟨hover_valid_eq slots totalUnits startSlotIndex u, c5_hover_eval,
    units_of_td, ?_⟩
  intro doors i c t
  rfl

end Configurator
